import Mathlib

/-!
Shallow embedding of the `rmavis/http` browser HTTP helper.

The repository holds successive iterations of one module.  The final
variant (`src/http.js`) is embedded in full below: request-object
normalization (`makeRequestObject` / `addRequestHeaders`), argument
preparation (`prepGetArgs` / `prepPostArgs`), dispatch (`init` /
`makeRequest`), completion handling (`handleReturn` and the
`onreadystatechange` closure), and the query-string serializer
(`toParamString`).  The module-level mutable state (the `verbose` flag
and the `async_keep` pending-request table) is threaded explicitly as an
`HttpState` value.  Network effects are reified: a dispatched request
becomes a `SentRequest` value, and callback invocations become
`CallbackCall` values, so theorems can speak about what was sent and
which callback was invoked with which arguments.

An earlier variant (`src/unnamed/part_001`) is embedded where a claim
depends on it: its `handleReturn`, whose `send_url == false` branch
invokes the stored record object itself instead of its `callback` field.

JavaScript value conventions used throughout:
- an optional string field is `Option String`; JS truthiness of a string
  is `strTruthy` (absent / null / empty string are falsy);
- an object-valued field (`params`, `json`, `headers`) is `Option` of its
  content; `some` models the field being set to a (truthy) object -- in
  JS every object, including the empty one, is truthy;
- a JS object literal used as a map is an association list, which keeps
  the insertion order that JS `for (var key in obj)` iterates in;
- callbacks are identified by a `Nat` tag; the embedding records which
  callback was invoked and with which arguments;
- `new Date().getTime()` is a `Nat` parameter `now`; JS number-to-string
  coercion of a natural number is `natDecimal`.
-/

namespace HttpJs

/-- JS truthiness of an optional string: `null` / `undefined` / `""` are falsy. -/
def strTruthy : Option String → Bool
  | none => false
  | some s => if s = "" then false else true

/-- JS string coercion of a possibly-null string (null prints as "null"),
as happens in `req_obj.url + '-' + timestamp` and `req_obj.url + '?' + qs`. -/
def jsShowUrl : Option String → String
  | some s => s
  | none => "null"

/-- Decimal digit to its character, for rendering numbers the way JS string
coercion does. -/
def digitCharOf : Nat → Char
  | 0 => '0'
  | 1 => '1'
  | 2 => '2'
  | 3 => '3'
  | 4 => '4'
  | 5 => '5'
  | 6 => '6'
  | 7 => '7'
  | 8 => '8'
  | _ => '9'

/-- Big-endian decimal digit characters of `n`, with `fuel` bounding the
recursion depth (`fuel = n` always suffices since `n / 10 < n` for `n > 0`). -/
def natDecimalAux : Nat → Nat → List Char
  | 0, _ => []
  | fuel + 1, n =>
    if n = 0 then [] else natDecimalAux fuel (n / 10) ++ [digitCharOf (n % 10)]

/-- JS number-to-string coercion for a natural number (decimal digits). -/
def natDecimal (n : Nat) : String :=
  if n = 0 then "0" else String.mk (natDecimalAux n n)

/-- JS number-to-string coercion for an integer: decimal digits with a
leading minus sign when negative. -/
def intDecimal : Int → String
  | .ofNat m => natDecimal m
  | .negSucc m => "-" ++ natDecimal (m + 1)

/-- Hexadecimal digit to its uppercase character, as `encodeURIComponent`
uses in percent escapes. -/
def hexDigitChar : Nat → Char
  | 0 => '0'
  | 1 => '1'
  | 2 => '2'
  | 3 => '3'
  | 4 => '4'
  | 5 => '5'
  | 6 => '6'
  | 7 => '7'
  | 8 => '8'
  | 9 => '9'
  | 10 => 'A'
  | 11 => 'B'
  | 12 => 'C'
  | 13 => 'D'
  | 14 => 'E'
  | _ => 'F'

/-- A percent escape `%XX` for one byte. -/
def byteHex (b : Nat) : String :=
  String.mk ['%', hexDigitChar (b / 16 % 16), hexDigitChar (b % 16)]

/-- UTF-8 bytes of a Unicode code point, as `encodeURIComponent` encodes
non-unreserved characters. -/
def utf8Bytes (n : Nat) : List Nat :=
  if n < 0x80 then [n]
  else if n < 0x800 then [0xC0 + n / 64, 0x80 + n % 64]
  else if n < 0x10000 then
    [0xE0 + n / 4096, 0x80 + n / 64 % 64, 0x80 + n % 64]
  else
    [0xF0 + n / 262144, 0x80 + n / 4096 % 64, 0x80 + n / 64 % 64, 0x80 + n % 64]

/-- Characters `encodeURIComponent` leaves unescaped:
letters, digits, and `- _ . ! ~ * ' ( )`. -/
def uriUnreserved (c : Char) : Bool :=
  c.isAlpha || c.isDigit ||
    (c = '-' || c = '_' || c = '.' || c = '!' || c = '~' ||
     c = '*' || c = '\'' || c = '(' || c = ')')

/-- The browser's `encodeURIComponent`: unreserved characters pass through,
every other character becomes the percent escapes of its UTF-8 bytes. -/
def encodeURIComponent (s : String) : String :=
  String.join (s.data.map (fun c =>
    if uriUnreserved c then String.singleton c
    else String.join ((utf8Bytes c.toNat).map byteHex)))

/-- JS `Array.prototype.join('&')`, used by `toParamString` in src/http.js. -/
def joinAmp : List String → String
  | [] => ""
  | [x] => x
  | x :: y :: rest => x ++ "&" ++ joinAmp (y :: rest)

/-- src/http.js `toParamString` (lines 331-342): pushes `key + '=' +
encodeURIComponent(value)` per pair -- the KEY is not encoded (the
`encodeURIComponent(key)` call is commented out in the source) -- then
joins with `&`.  Iteration order of a JS object is insertion order. -/
def toParamString (obj : List (String × String)) : String :=
  joinAmp (obj.map (fun kv => kv.1 ++ "=" ++ encodeURIComponent kv.2))

/-- src/unnamed/part_001 `toParamString` (lines 224-238): encodes both key
and value, accumulates `k=v&` and drops the trailing character. -/
def toParamStringV1 (obj : List (String × String)) : String :=
  (String.join (obj.map (fun kv =>
    encodeURIComponent kv.1 ++ "=" ++ encodeURIComponent kv.2 ++ "&"))).dropRight 1

/-- A JSON value, for the `json` payload passed to `JSON.stringify`. -/
inductive JValue where
  | jnull : JValue
  | jbool : Bool → JValue
  | jnum : Int → JValue
  | jstr : String → JValue
  | jarr : List JValue → JValue
  | jobj : List (String × JValue) → JValue

/-- JSON string escaping for `JSON.stringify`. -/
def jsonEscapeChar (c : Char) : String :=
  if c = '"' then "\\\""
  else if c = '\\' then "\\\\"
  else if c = '\n' then "\\n"
  else if c = '\t' then "\\t"
  else if c = '\r' then "\\r"
  else String.singleton c

mutual

/-- The browser's `JSON.stringify`, on the `JValue` model. -/
def stringify : JValue → String
  | .jnull => "null"
  | .jbool true => "true"
  | .jbool false => "false"
  | .jnum n => intDecimal n
  | .jstr s => "\"" ++ String.join (s.data.map jsonEscapeChar) ++ "\""
  | .jarr xs => "[" ++ stringifyArr xs ++ "]"
  | .jobj kvs => "\x7b" ++ stringifyObj kvs ++ "\x7d"

/-- Comma-joined serialization of a JSON array's elements. -/
def stringifyArr : List JValue → String
  | [] => ""
  | [x] => stringify x
  | x :: y :: rest => stringify x ++ "," ++ stringifyArr (y :: rest)

/-- Comma-joined serialization of a JSON object's members. -/
def stringifyObj : List (String × JValue) → String
  | [] => ""
  | [kv] => "\"" ++ kv.1 ++ "\":" ++ stringify kv.2
  | kv :: kv2 :: rest =>
    "\"" ++ kv.1 ++ "\":" ++ stringify kv.2 ++ "," ++ stringifyObj (kv2 :: rest)

end

/-- Association-table lookup (first binding wins), modeling JS property read. -/
def tlookup {α : Type} : List (String × α) → String → Option α
  | [], _ => none
  | p :: rest, k => if p.1 = k then some p.2 else tlookup rest k

/-- JS property write `obj[k] = v`: replace an existing binding in place,
otherwise append a new one. -/
def tset {α : Type} : List (String × α) → String → α → List (String × α)
  | [], k, v => [(k, v)]
  | p :: rest, k, v => if p.1 = k then (k, v) :: rest else p :: tset rest k v

/-- JS `delete obj[k]`: remove the binding for `k`. -/
def tdel {α : Type} (t : List (String × α)) (k : String) : List (String × α) :=
  t.filter (fun p => !(p.1 == k))

/-- JS truthiness of `headers[k]` (absent or empty string is falsy). -/
def headerTruthy (hs : List (String × String)) (k : String) : Bool :=
  strTruthy (tlookup hs k)

/-- The caller-supplied argument object of src/http.js.  A `none` field was
absent from the object (or set to a falsy value, for the payload fields);
`makeRequestObject` fills it from `getDefaultRequestObject`. -/
structure Args where
  url : Option String
  params : Option (List (String × String))
  json : Option JValue
  raw_data : Option String
  callback : Option Nat
  send_url : Option Bool
  verbose : Option Bool
  headers : Option (List (String × String))

/-- The normalized request record of src/http.js, as built by
`makeRequestObject` and extended by `prepGetArgs` / `prepPostArgs`
(`verb`, `open_url`, `send_val` are added later; a JS object just grows
properties, here they start at sentinel values). -/
structure ReqObj where
  url : Option String
  params : Option (List (String × String))
  json : Option JValue
  raw_data : Option String
  callback : Option Nat
  send_url : Bool
  verbose : Bool
  headers : List (String × String)
  keep_key : String
  verb : String
  open_url : Option String
  send_val : Option String

/-- The module-level mutable state of src/http.js: the `verbose` flag and
the `async_keep` pending-request table. -/
structure HttpState where
  verbose : Bool
  async_keep : List (String × ReqObj)

/-- src/http.js line 82: module default for `send_url`. -/
def send_url_to_callback : Bool := true

/-- src/http.js line 111: `verbose = (args.hasOwnProperty('verbose') &&
args.verbose) ? true : verbose` -- the module flag is set (permanently)
when the call passes a truthy `verbose`. -/
def updVerbose (st : HttpState) (args : Args) : Bool :=
  if args.verbose = some true then true else st.verbose

/-- The merge loop of `makeRequestObject` (src/http.js lines 113-136):
each key takes the caller's value when present, else the default from
`getDefaultRequestObject` (whose `verbose` default reads the module flag
after the line-111 update); then `keep_key = req_obj.url + '-' +
(new Date().getTime())`. -/
def mergeArgs (st : HttpState) (args : Args) (now : Nat) : ReqObj :=
  { url := args.url
    params := args.params
    json := args.json
    raw_data := args.raw_data
    callback := args.callback
    send_url := args.send_url.getD send_url_to_callback
    verbose := args.verbose.getD (updVerbose st args)
    headers := args.headers.getD []
    keep_key := jsShowUrl args.url ++ "-" ++ natDecimal now
    verb := ""
    open_url := none
    send_val := none }

/-- src/http.js `addRequestHeaders` (lines 143-156): default
`X-Requested-With`, then `Content-Type` by payload kind -- JSON content
type when `json` is truthy, otherwise the form-urlencoded default --
unless the caller's headers already carry a truthy `Content-Type`. -/
def addRequestHeaders (r : ReqObj) : ReqObj :=
  let h1 := if headerTruthy r.headers "X-Requested-With" then r.headers
            else tset r.headers "X-Requested-With" "XMLHttpRequest"
  let h2 := if r.json.isSome && !(headerTruthy h1 "Content-Type") then
              tset h1 "Content-Type" "application/json;charset=UTF-8"
            else if !(headerTruthy h1 "Content-Type") then
              tset h1 "Content-Type" "application/x-www-form-urlencoded"
            else h1
  { r with headers := h2 }

/-- src/http.js `makeRequestObject` (lines 110-139): updates the module
`verbose` flag, merges the caller's arguments over the defaults, stamps
the `keep_key`, and adds the default headers. -/
def makeRequestObject (st : HttpState) (args : Args) (now : Nat) :
    HttpState × ReqObj :=
  ({ st with verbose := updVerbose st args },
   addRequestHeaders (mergeArgs st args now))

/-- src/http.js `prepGetArgs` (lines 160-174): sets the verb, builds
`open_url` (URL plus `?` plus query string when `params` is truthy --
note an empty JS object is truthy), and a null `send_val`. -/
def prepGetArgs (st : HttpState) (args : Args) (now : Nat) (verb : String) :
    HttpState × ReqObj :=
  let p := makeRequestObject st args now
  (p.1,
   { p.2 with
       verb := verb
       open_url := match p.2.params with
         | some ps => some (jsShowUrl p.2.url ++ "?" ++ toParamString ps)
         | none => p.2.url
       send_val := none })

/-- The `send_opts` scan of src/http.js `prepPostArgs` (lines 189-201):
visits `params`, `json`, `raw_data` in that order and overwrites
`send_val` at every truthy source, so the last truthy one wins. -/
def postSendVal (r : ReqObj) : Option String :=
  let v1 : Option String := match r.params with
    | some ps => some (toParamString ps)
    | none => none
  let v2 : Option String := match r.json with
    | some j => some (stringify j)
    | none => v1
  match r.raw_data with
  | some d => if d = "" then v2 else some d
  | none => v2

/-- src/http.js `prepPostArgs` (lines 180-217): sets the verb, `open_url`
is the bare URL, and `send_val` comes from the `send_opts` scan. -/
def prepPostArgs (st : HttpState) (args : Args) (now : Nat) (verb : String) :
    HttpState × ReqObj :=
  let p := makeRequestObject st args now
  (p.1,
   { p.2 with
       verb := verb
       open_url := p.2.url
       send_val := postSendVal { p.2 with verb := verb, open_url := p.2.url } })

/-- The observable wire effect of `makeRequest`: what `xhr.open`,
`setRequestHeader` and `send` were given. -/
structure SentRequest where
  verb : String
  open_url : Option String
  headers : List (String × String)
  body : Option String

/-- src/http.js `makeRequest` (lines 241-289): stores the record in
`async_keep` under its `keep_key` before sending, then opens the request
and sends `send_val` when truthy (`xhr.send()` with no body otherwise). -/
def makeRequest (st : HttpState) (r : ReqObj) : HttpState × SentRequest :=
  ({ st with async_keep := tset st.async_keep r.keep_key r },
   { verb := r.verb
     open_url := r.open_url
     headers := r.headers
     body := if strTruthy r.send_val then r.send_val else none })

/-- src/http.js `init` (lines 223-237): dispatches via `makeRequest` when
the URL is truthy; otherwise only a diagnostic log line (when verbose)
and no effect at all -- no request, no callback, no error signal. -/
def init (st : HttpState) (r : ReqObj) : HttpState × Option SentRequest :=
  if strTruthy r.url then
    let p := makeRequest st r
    (p.1, some p.2)
  else (st, none)

/-- `Http.get` of src/http.js: `init(prepGetArgs(args))`.  Returns the
final module state, the prepared record (as captured by the completion
closure), and the dispatched request when one was sent. -/
def runGet (st : HttpState) (args : Args) (now : Nat) :
    HttpState × ReqObj × Option SentRequest :=
  let p := prepGetArgs st args now "get"
  let q := init p.1 p.2
  (q.1, p.2, q.2)

/-- `Http.delete` of src/http.js: `init(prepGetArgs(args, 'delete'))`. -/
def runDelete (st : HttpState) (args : Args) (now : Nat) :
    HttpState × ReqObj × Option SentRequest :=
  let p := prepGetArgs st args now "delete"
  let q := init p.1 p.2
  (q.1, p.2, q.2)

/-- `Http.post` of src/http.js: `init(prepPostArgs(args))`. -/
def runPost (st : HttpState) (args : Args) (now : Nat) :
    HttpState × ReqObj × Option SentRequest :=
  let p := prepPostArgs st args now "post"
  let q := init p.1 p.2
  (q.1, p.2, q.2)

/-- `Http.put` of src/http.js: `init(prepPostArgs(args, 'put'))`. -/
def runPut (st : HttpState) (args : Args) (now : Nat) :
    HttpState × ReqObj × Option SentRequest :=
  let p := prepPostArgs st args now "put"
  let q := init p.1 p.2
  (q.1, p.2, q.2)

/-- A recorded callback invocation: one argument (`response`) or two
(`response, url`), per `send_url`.  The response is `Option String`
because the completion closure passes JS `undefined` (here `none`) when
`xhr.responseText` is empty. -/
inductive CallbackCall where
  | oneArg : Nat → Option String → CallbackCall
  | twoArg : Nat → Option String → Option String → CallbackCall
deriving DecidableEq

/-- Which callback an invocation targeted. -/
def callCb : CallbackCall → Nat
  | .oneArg cb _ => cb
  | .twoArg cb _ _ => cb

/-- The response argument an invocation carried. -/
def callResp : CallbackCall → Option String
  | .oneArg _ r => r
  | .twoArg _ r _ => r

/-- The observable outcome of src/http.js `handleReturn`: the table after,
the callback invocations made, and whether the orphan diagnostic
(`HTTP DISASTER: no state retained ...`) was logged. -/
structure HandleOut where
  keep : List (String × ReqObj)
  calls : List CallbackCall
  orphanLog : Bool

/-- src/http.js `handleReturn` (lines 293-327): look up the record by
`keep_key`; when found, invoke its callback (two arguments when
`send_url` is truthy, one otherwise; none when no callback) and delete
the record; when not found, only log the orphan diagnostic.  The
function is total -- no exception escapes. -/
def handleReturn (keep : List (String × ReqObj)) (keep_key : String)
    (url : Option String) (response : Option String) : HandleOut :=
  match tlookup keep keep_key with
  | some r =>
    { keep := tdel keep keep_key
      calls := match r.callback with
        | some cb =>
          if r.send_url then [.twoArg cb response url] else [.oneArg cb response]
        | none => []
      orphanLog := false }
  | none => { keep := keep, calls := [], orphanLog := true }

/-- The `xhr.onreadystatechange` closure of src/http.js `makeRequest`
(lines 279-288): on ready state 4 -- the HTTP status is never consulted
-- it calls `handleReturn` with the response text when truthy and with
no third argument (JS `undefined`, here `none`) when the body is empty. -/
def onReadyStateChange (keep : List (String × ReqObj)) (r : ReqObj)
    (readyState : Nat) (_status : Nat) (responseText : String) : HandleOut :=
  if readyState = 4 then
    if responseText = "" then handleReturn keep r.keep_key r.url none
    else handleReturn keep r.keep_key r.url (some responseText)
  else { keep := keep, calls := [], orphanLog := false }

/-- The request record of src/unnamed/part_001 (its `proto_req` plus the
verb), kept in its `async_keep` table under the plain URL. -/
structure ReqObjV1 where
  url : Option String
  params : Option (List (String × String))
  callback : Option Nat
  send_url : Bool
  verbose : Bool
  verb : String
deriving DecidableEq

/-- The observable outcome of part_001's `handleReturn`. -/
inductive V1Outcome where
  | invoked : CallbackCall → V1Outcome
  | noCallback : V1Outcome
  | typeErrorCallRecord : V1Outcome
  | orphan : V1Outcome
deriving DecidableEq

/-- src/unnamed/part_001 `handleReturn` (lines 189-220).  When the record
is found and has a callback: with `send_url` truthy it runs
`async_keep[url].callback(response, url)`; with `send_url` falsy line
204 runs `async_keep[url](response)` -- invoking the stored record
OBJECT itself, not its `.callback` -- which throws a TypeError, so the
`delete` on line 214 is never reached and the table keeps the record. -/
def handleReturnV1 (keep : List (String × ReqObjV1)) (url : String)
    (response : Option String) : V1Outcome × List (String × ReqObjV1) :=
  match tlookup keep url with
  | some r =>
    match r.callback with
    | some cb =>
      if r.send_url then
        (.invoked (.twoArg cb response (some url)), tdel keep url)
      else
        (.typeErrorCallRecord, keep)
    | none => (.noCallback, tdel keep url)
  | none => (.orphan, keep)

/-- The query string as the specification words it for claim C1: BOTH the
key and the value of every pair percent-encoded, pairs `key=value`
joined by `&` in insertion order.  (Definition follows the spec text,
for comparison against the source's `toParamString`.) -/
def specQueryString (obj : List (String × String)) : String :=
  joinAmp (obj.map (fun kv =>
    encodeURIComponent kv.1 ++ "=" ++ encodeURIComponent kv.2))

/-- The POST/PUT body selection as claim C2 words it: the last non-empty
source in the scan order `params`, `json`, `raw_data` wins; `params`
form-encoded, `json` JSON-serialized, `raw_data` passed unchanged. -/
def specLastSourceBody (args : Args) : Option String :=
  if strTruthy args.raw_data then args.raw_data
  else if args.json.isSome then args.json.map stringify
  else if args.params.isSome then args.params.map toParamString
  else none

/-- How many of the three POST/PUT payload sources are set (truthy). -/
def truthySourceCount (args : Args) : Nat :=
  (if args.params.isSome then 1 else 0) +
  (if args.json.isSome then 1 else 0) +
  (if strTruthy args.raw_data then 1 else 0)

/-- Reads a decimal digit string back to its number; proof device used to
show `natDecimal` (and hence the timestamp part of a `keep_key`) is
injective. -/
def decimalVal (s : String) : Nat :=
  s.data.foldl (fun acc c => acc * 10 + (c.toNat - 48)) 0

/-- Module state with verbose off and an empty pending-request table. -/
def st0 : HttpState := { verbose := false, async_keep := [] }

/-- GET config whose params key contains a space, separating the source's
unencoded-key behavior from the spec's both-encoded wording. -/
def c1Args : Args :=
  ⟨some "http://x", some [("a b", "1")], none, none, some 5, none, none, none⟩

/-- GET config matching the spec's own example `params = a:1, b:2 x`. -/
def c1WitArgs : Args :=
  ⟨some "http://x", some [("a", "1"), ("b", "2 x")], none, none, some 5, none,
   none, none⟩

/-- POST config with two payload sources set (params and raw_data). -/
def c2WitArgs : Args :=
  ⟨some "http://x", some [("a", "1")], none, some "RAW", some 1, none, none,
   none⟩

/-- POST config with only raw_data set and no caller Content-Type. -/
def c3Args : Args :=
  ⟨some "http://x", none, none, some "RAW", some 1, none, none, none⟩

/-- POST config with only params set and no caller Content-Type. -/
def c3WitArgs : Args :=
  ⟨some "http://x", some [("a", "1")], none, none, some 1, none, none, none⟩

/-- Config with no url key at all. -/
def c4WitArgs : Args :=
  ⟨none, some [("a", "1")], none, none, some 5, none, none, none⟩

/-- First of two concurrent GET configs to the same URL. -/
def c5ArgsA : Args :=
  ⟨some "http://x", none, none, none, some 1, none, none, none⟩

/-- Second of two concurrent GET configs to the same URL. -/
def c5ArgsB : Args :=
  ⟨some "http://x", none, none, none, some 2, none, none, none⟩

/-- Config passing verbose true for one call. -/
def c9Args : Args :=
  ⟨some "http://x", none, none, none, none, none, some true, none⟩

/-- part_001 pending record with send_url false and a callback, the
configuration whose completion hits line 204. -/
def c7Rec : ReqObjV1 :=
  { url := some "http://x", params := none, callback := some 1
    send_url := false, verbose := false, verb := "get" }

/-- A normalized pending request record, as stored under its keep key. -/
def c10Req : ReqObj :=
  { url := some "http://x", params := none, json := none, raw_data := none
    callback := some 7, send_url := false, verbose := false
    headers := [("X-Requested-With", "XMLHttpRequest"),
                ("Content-Type", "application/x-www-form-urlencoded")]
    keep_key := "http://x-1", verb := "get", open_url := some "http://x"
    send_val := none }

end HttpJs

namespace HttpJs

theorem natDecimalAux_zero (fuel : Nat) : natDecimalAux fuel 0 = [] := by
  cases fuel <;> simp [natDecimalAux]

theorem toNat_digitCharOf (d : Nat) (h : d < 10) :
    (digitCharOf d).toNat = 48 + d := by
  interval_cases d <;> rfl

theorem decimalVal_aux (fuel n : Nat) (hn : n ≤ fuel) (hpos : 0 < n) :
    List.foldl (fun acc c => acc * 10 + (c.toNat - 48)) 0 (natDecimalAux fuel n)
      = n := by
  induction fuel generalizing n with
  | zero => omega
  | succ f ih =>
    have hlt : n / 10 < n := Nat.div_lt_self hpos (by omega)
    rw [natDecimalAux, if_neg (by omega), List.foldl_append]
    simp only [List.foldl_cons, List.foldl_nil]
    rw [toNat_digitCharOf (n % 10) (Nat.mod_lt _ (by omega))]
    by_cases h10 : n / 10 = 0
    · rw [h10, natDecimalAux_zero]
      simp only [List.foldl_nil]
      omega
    · rw [ih (n / 10) (by omega) (by omega)]
      omega

theorem decimalVal_natDecimal (n : Nat) : decimalVal (natDecimal n) = n := by
  by_cases h : n = 0
  · subst h; decide
  · rw [natDecimal, if_neg h]
    exact decimalVal_aux n n le_rfl (Nat.pos_of_ne_zero h)

theorem natDecimal_inj {a b : Nat} (h : natDecimal a = natDecimal b) : a = b := by
  have h2 := congrArg decimalVal h
  rwa [decimalVal_natDecimal, decimalVal_natDecimal] at h2

theorem keepKey_inj (u : String) {t1 t2 : Nat}
    (h : u ++ "-" ++ natDecimal t1 = u ++ "-" ++ natDecimal t2) : t1 = t2 := by
  have hd := congrArg String.data h
  rw [String.data_append, String.data_append, String.data_append,
    String.data_append] at hd
  exact natDecimal_inj (String.ext (List.append_cancel_left hd))

theorem append3_ne_empty (a m b : String) (hm : m.data ≠ []) :
    a ++ m ++ b ≠ "" := by
  intro h
  have hd : a.data ++ m.data ++ b.data = ([] : List Char) := by
    have h2 := congrArg String.data h
    rwa [String.data_append, String.data_append] at h2
  rcases List.append_eq_nil.mp hd with ⟨h1, _⟩
  rcases List.append_eq_nil.mp h1 with ⟨_, h2⟩
  exact hm h2

theorem toParamString_ne_empty (kv : String × String)
    (rest : List (String × String)) : toParamString (kv :: rest) ≠ "" := by
  rw [toParamString, List.map_cons]
  cases rest with
  | nil =>
    simp only [List.map_nil, joinAmp]
    exact append3_ne_empty _ _ _ (by decide)
  | cons y t =>
    simp only [List.map_cons, joinAmp]
    exact append3_ne_empty _ _ _ (by decide)

theorem tlookup_tset_self {α : Type} (t : List (String × α)) (k : String)
    (v : α) : tlookup (tset t k v) k = some v := by
  induction t with
  | nil => simp [tset, tlookup]
  | cons p rest ih =>
    by_cases h : p.1 = k
    · simp [tset, h, tlookup]
    · simp [tset, h, tlookup, ih]

theorem tlookup_tset_ne {α : Type} (t : List (String × α)) {k k' : String}
    (v : α) (hk : k' ≠ k) : tlookup (tset t k v) k' = tlookup t k' := by
  have hk2 : ¬k = k' := Ne.symm hk
  induction t with
  | nil => simp [tset, tlookup, hk2]
  | cons p rest ih =>
    by_cases h : p.1 = k
    · simp [tset, h, tlookup, hk2]
    · simp [tset, h, tlookup, ih]

theorem tlookup_tdel_self {α : Type} (t : List (String × α)) (k : String) :
    tlookup (tdel t k) k = none := by
  induction t with
  | nil => rfl
  | cons p rest ih =>
    by_cases h : p.1 = k
    · simpa [tdel, List.filter_cons, h] using ih
    · simpa [tdel, List.filter_cons, h, tlookup] using ih

theorem tlookup_tdel_ne {α : Type} (t : List (String × α)) {k k' : String}
    (hk : k' ≠ k) : tlookup (tdel t k) k' = tlookup t k' := by
  induction t with
  | nil => rfl
  | cons p rest ih =>
    by_cases h : p.1 = k
    · have h2 : ¬p.1 = k' := fun hh => hk (hh.symm.trans h)
      simpa [tdel, List.filter_cons, h, tlookup, h2, Ne.symm hk] using ih
    · by_cases h2 : p.1 = k'
      · simp [tdel, List.filter_cons, h, tlookup, h2, hk]
      · simpa [tdel, List.filter_cons, h, tlookup, h2] using ih

end HttpJs

namespace HttpJs

/-- Claim C9, counterexample: a call that passes verbose true leaves the
module-level verbose flag set to true afterwards, different from the
false it held before the call, so the setting is not scoped to the call. -/
theorem c9_counterexample :
    (runGet st0 c9Args 1).1.verbose ≠ st0.verbose := by decide

/-- Claim C9 (amended): passing verbose in a config updates the module-level
flag for good rather than for that call only -- after any of the four
entry points the module flag is true if the call passed verbose true,
and otherwise keeps its previous value; a later call that omits verbose
is therefore logged under the updated flag. -/
theorem c9_amended_verbose_sticky (st : HttpState) (args : Args) (now : Nat) :
    (runGet st args now).1.verbose
        = (if args.verbose = some true then true else st.verbose) ∧
    (runDelete st args now).1.verbose
        = (if args.verbose = some true then true else st.verbose) ∧
    (runPost st args now).1.verbose
        = (if args.verbose = some true then true else st.verbose) ∧
    (runPut st args now).1.verbose
        = (if args.verbose = some true then true else st.verbose) := by
  refine ⟨?_, ?_, ?_, ?_⟩ <;>
    · simp only [runGet, runDelete, runPost, runPut, prepGetArgs, prepPostArgs,
        makeRequestObject, init, updVerbose]
      split <;> simp [makeRequest]

/-- Claim C4: a config whose url is missing (or the empty string) makes no
network call from any of the four public entry points (no SentRequest is
produced, hence no completion and no callback can ever fire for it) and
leaves the pending-request table exactly as it was; the embedding is a
total function, so no error is signalled either. -/
theorem c4_missing_url_no_effect (st : HttpState) (args : Args) (now : Nat)
    (h : args.url = none ∨ args.url = some "") :
    ((runGet st args now).2.2 = none ∧
     (runGet st args now).1.async_keep = st.async_keep) ∧
    ((runDelete st args now).2.2 = none ∧
     (runDelete st args now).1.async_keep = st.async_keep) ∧
    ((runPost st args now).2.2 = none ∧
     (runPost st args now).1.async_keep = st.async_keep) ∧
    ((runPut st args now).2.2 = none ∧
     (runPut st args now).1.async_keep = st.async_keep) := by
  rcases h with h | h <;>
    simp [runGet, runDelete, runPost, runPut, prepGetArgs, prepPostArgs,
      makeRequestObject, mergeArgs, addRequestHeaders, init, strTruthy, h]

/-- Claim C4, witness: a concrete config with no url, dispatched from the
empty module state. -/
theorem c4_witness :
    (c4WitArgs.url = none ∨ c4WitArgs.url = some "") ∧
    (runGet st0 c4WitArgs 7).2.2 = none ∧
    (runGet st0 c4WitArgs 7).1.async_keep = st0.async_keep := by
  have h := c4_missing_url_no_effect st0 c4WitArgs 7 (Or.inl rfl)
  exact ⟨Or.inl rfl, h.1.1, h.1.2⟩

end HttpJs

namespace HttpJs

theorem handleReturn_found (keep : List (String × ReqObj)) (k : String)
    (url resp : Option String) (r : ReqObj) (h : tlookup keep k = some r) :
    handleReturn keep k url resp =
      { keep := tdel keep k
        calls := match r.callback with
          | some cb =>
            if r.send_url then [.twoArg cb resp url] else [.oneArg cb resp]
          | none => []
        orphanLog := false } := by
  simp [handleReturn, h]

theorem handleReturn_none (keep : List (String × ReqObj)) (k : String)
    (url resp : Option String) (h : tlookup keep k = none) :
    handleReturn keep k url resp
      = { keep := keep, calls := [], orphanLog := true } := by
  simp [handleReturn, h]

/-- Claim C8: a completion whose correlation key has no record in the
pending-request table only logs the orphan diagnostic -- no callback is
invoked and the table is left unchanged; `handleReturn` is a total
function, so no exception is thrown either. -/
theorem c8_orphan_response (keep : List (String × ReqObj)) (k : String)
    (url response : Option String) (h : tlookup keep k = none) :
    (handleReturn keep k url response).keep = keep ∧
    (handleReturn keep k url response).calls = [] ∧
    (handleReturn keep k url response).orphanLog = true := by
  simp [handleReturn, h]

/-- Claim C8, witness: a completion against the empty table. -/
theorem c8_witness :
    (handleReturn ([] : List (String × ReqObj)) "k" (some "http://x")
        (some "OK")).keep = [] ∧
    (handleReturn ([] : List (String × ReqObj)) "k" (some "http://x")
        (some "OK")).calls = [] ∧
    (handleReturn ([] : List (String × ReqObj)) "k" (some "http://x")
        (some "OK")).orphanLog = true :=
  c8_orphan_response [] "k" (some "http://x") (some "OK") rfl

/-- Claim C10: in the last variant, a completion (ready state 4) with an
empty response body runs for every HTTP status code -- the status is
never consulted -- and the stored callback is invoked exactly once with
the undefined response (`none`, which is not the empty string), after
which the record is gone from the table. -/
theorem c10_empty_body_completion (keep : List (String × ReqObj)) (r : ReqObj)
    (statusCode : Nat) (cb : Nat) (hfound : tlookup keep r.keep_key = some r)
    (hcb : r.callback = some cb) :
    (onReadyStateChange keep r 4 statusCode "").calls.map callCb = [cb] ∧
    (onReadyStateChange keep r 4 statusCode "").calls.map callResp
      = [(none : Option String)] ∧
    (none : Option String) ≠ some "" ∧
    tlookup (onReadyStateChange keep r 4 statusCode "").keep r.keep_key
      = none := by
  have h0 : onReadyStateChange keep r 4 statusCode ""
      = handleReturn keep r.keep_key r.url none := by
    simp [onReadyStateChange]
  rw [h0]
  simp only [handleReturn, hfound, hcb]
  cases r.send_url <;>
    simp [callCb, callResp, tlookup_tdel_self]

/-- Claim C10, witness: a concrete pending record completed with status 500
and an empty body. -/
theorem c10_witness :
    (onReadyStateChange [("http://x-1", c10Req)] c10Req 4 500 "").calls.map
        callCb = [7] ∧
    (onReadyStateChange [("http://x-1", c10Req)] c10Req 4 500 "").calls.map
        callResp = [(none : Option String)] ∧
    tlookup (onReadyStateChange [("http://x-1", c10Req)] c10Req 4 500 "").keep
        c10Req.keep_key = none := by
  have h := c10_empty_body_completion [("http://x-1", c10Req)] c10Req 500 7
    (by rfl) (by rfl)
  exact ⟨h.1, h.2.1, h.2.2.2⟩

/-- Claim C6: the record is in the pending-request table from the moment the
request is sent (makeRequest stores it before sending), and handling its
completion removes it in the same step that invokes the callback --
whether or not a callback exists, the record is removed; a second
completion for the same key finds nothing, invokes nothing, and leaves
the table unchanged, so removal cannot happen twice. -/
theorem c6_record_lifecycle (st : HttpState) (r : ReqObj) (resp : Option String) :
    tlookup (makeRequest st r).1.async_keep r.keep_key = some r ∧
    tlookup (handleReturn (makeRequest st r).1.async_keep r.keep_key r.url
        resp).keep r.keep_key = none ∧
    (handleReturn (makeRequest st r).1.async_keep r.keep_key r.url
        resp).calls.map callCb
      = (match r.callback with | some cb => [cb] | none => []) ∧
    (handleReturn (makeRequest st r).1.async_keep r.keep_key r.url
        resp).orphanLog = false ∧
    (handleReturn (handleReturn (makeRequest st r).1.async_keep r.keep_key
        r.url resp).keep r.keep_key r.url resp).calls = [] ∧
    (handleReturn (handleReturn (makeRequest st r).1.async_keep r.keep_key
        r.url resp).keep r.keep_key r.url resp).keep
      = (handleReturn (makeRequest st r).1.async_keep r.keep_key r.url
          resp).keep ∧
    (handleReturn (handleReturn (makeRequest st r).1.async_keep r.keep_key
        r.url resp).keep r.keep_key r.url resp).orphanLog = true := by
  have h1 : tlookup (makeRequest st r).1.async_keep r.keep_key = some r := by
    simp [makeRequest, tlookup_tset_self]
  rw [handleReturn_found _ _ _ _ _ h1]
  simp only
  have h3 : tlookup (tdel (makeRequest st r).1.async_keep r.keep_key)
      r.keep_key = none := tlookup_tdel_self _ _
  rw [handleReturn_none _ _ _ _ h3]
  refine ⟨h1, h3, ?_, by trivial, by trivial, by trivial, by trivial⟩
  cases r.callback with
  | none => simp
  | some cb => cases r.send_url <;> simp [callCb]

end HttpJs

namespace HttpJs

theorem append_left_ne_empty (a b : String) (ha : a.data ≠ []) :
    a ++ b ≠ "" := by
  intro h
  have hd : a.data ++ b.data = ([] : List Char) := by
    have h2 := congrArg String.data h
    rwa [String.data_append] at h2
  exact ha (List.append_eq_nil.mp hd).1

theorem natDecimal_ne_empty (n : Nat) : natDecimal n ≠ "" := by
  rw [natDecimal]
  split
  · decide
  · rename_i hn
    intro h
    have hd : natDecimalAux n n = ([] : List Char) := congrArg String.data h
    cases n with
    | zero => exact hn rfl
    | succ m =>
      rw [natDecimalAux, if_neg hn] at hd
      rcases List.append_eq_nil.mp hd with ⟨-, h2⟩
      exact List.cons_ne_nil _ _ h2

theorem append_left3_ne_empty (a m b : String) (ha : a.data ≠ []) :
    a ++ m ++ b ≠ "" := by
  apply append_left_ne_empty
  rw [String.data_append]
  intro h
  exact ha (List.append_eq_nil.mp h).1

theorem stringify_ne_empty (j : JValue) : stringify j ≠ "" := by
  cases j with
  | jnull => simp [stringify]
  | jbool b => cases b <;> simp [stringify]
  | jnum n =>
    cases n with
    | ofNat m => simpa [stringify, intDecimal] using natDecimal_ne_empty m
    | negSucc m =>
      simp only [stringify, intDecimal]
      exact append_left_ne_empty _ _ (by decide)
  | jstr s =>
    simp only [stringify]
    exact append_left3_ne_empty _ _ _ (by decide)
  | jarr xs =>
    simp only [stringify]
    exact append_left3_ne_empty _ _ _ (by decide)
  | jobj kvs =>
    simp only [stringify]
    exact append_left3_ne_empty _ _ _ (by decide)

theorem addRequestHeaders_headers (r : ReqObj)
    (hct : headerTruthy r.headers "Content-Type" = false) :
    (addRequestHeaders r).headers
      = tset (if headerTruthy r.headers "X-Requested-With" then r.headers
              else tset r.headers "X-Requested-With" "XMLHttpRequest")
          "Content-Type"
          (if r.json.isSome then "application/json;charset=UTF-8"
           else "application/x-www-form-urlencoded") := by
  have hx : headerTruthy
      (if headerTruthy r.headers "X-Requested-With" then r.headers
       else tset r.headers "X-Requested-With" "XMLHttpRequest")
      "Content-Type" = false := by
    split
    · exact hct
    · rw [headerTruthy, tlookup_tset_ne _ _ (by decide)]
      exact hct
  simp only [addRequestHeaders]
  cases hj : r.json.isSome <;> simp [hx, hj]

theorem ct_of_addRequestHeaders (r : ReqObj)
    (hct : headerTruthy r.headers "Content-Type" = false) :
    tlookup (addRequestHeaders r).headers "Content-Type"
      = some (if r.json.isSome then "application/json;charset=UTF-8"
              else "application/x-www-form-urlencoded") := by
  rw [addRequestHeaders_headers r hct, tlookup_tset_self]

end HttpJs

namespace HttpJs

/-- Claim C1, counterexample: a GET config whose params key contains a space
is dispatched with the key verbatim (`a b=1`), not percent-encoded as
the claim's both-encoded query string (`a%20b=1`) requires -- src/http.js
`toParamString` encodes only the value (the key-encoding call is
commented out in the source). -/
theorem c1_counterexample :
    ((runGet st0 c1Args 7).2.2.map SentRequest.open_url)
      = some (some "http://x?a b=1") ∧
    "http://x" ++ "?" ++ specQueryString [("a b", "1")] = "http://x?a%20b=1" ∧
    ("http://x?a b=1" : String) ≠ "http://x?a%20b=1" := by
  refine ⟨by decide, by decide, by decide⟩

/-- Claim C1 (amended): for every GET or DELETE config with a truthy url and
params present, the dispatched URL is the config URL, then a question
mark, then the pairs written `key=value` joined by ampersands in the
insertion order of params, with every VALUE percent-encoded and every
key inserted verbatim (unencoded) -- the spec's claim that keys are also
percent-encoded fails, see the counterexample. -/
theorem c1_amended_query_string (st : HttpState) (args : Args) (now : Nat)
    (u : String) (ps : List (String × String)) (hu : args.url = some u)
    (hne : u ≠ "") (hp : args.params = some ps) (_hpe : ps ≠ []) :
    ((runGet st args now).2.2.map SentRequest.open_url)
      = some (some (u ++ "?" ++
          joinAmp (ps.map (fun kv => kv.1 ++ "=" ++ encodeURIComponent kv.2)))) ∧
    ((runDelete st args now).2.2.map SentRequest.open_url)
      = some (some (u ++ "?" ++
          joinAmp (ps.map (fun kv => kv.1 ++ "=" ++ encodeURIComponent kv.2)))) := by
  constructor <;>
    simp [runGet, runDelete, prepGetArgs, makeRequestObject, mergeArgs,
      addRequestHeaders, init, makeRequest, strTruthy, hu, hp, hne, jsShowUrl,
      toParamString]

/-- Claim C1, witness: the spec's own example, params a to 1 and b to 2-space-x,
on both GET and DELETE. -/
theorem c1_witness :
    ((runGet st0 c1WitArgs 7).2.2.map SentRequest.open_url)
      = some (some ("http://x" ++ "?" ++
          joinAmp ([("a", "1"), ("b", "2 x")].map
            (fun kv => kv.1 ++ "=" ++ encodeURIComponent kv.2)))) ∧
    ((runDelete st0 c1WitArgs 7).2.2.map SentRequest.open_url)
      = some (some ("http://x" ++ "?" ++
          joinAmp ([("a", "1"), ("b", "2 x")].map
            (fun kv => kv.1 ++ "=" ++ encodeURIComponent kv.2)))) :=
  c1_amended_query_string st0 c1WitArgs 7 "http://x" [("a", "1"), ("b", "2 x")]
    rfl (by decide) rfl (by decide)

/-- Claim C7 is a code bug in src/unnamed/part_001: with send_url false and a
stored callback, completion evaluates `async_keep[url](response)` (line
204), invoking the request record object itself -- a TypeError -- instead
of `async_keep[url].callback(response)`; the callback never receives the
response and, the exception aborting the handler, the record is never
deleted from the table.  (The last variant, src/http.js, does call the
callback with one argument in this case, as the claim states.) -/
theorem c7_send_url_false_type_error :
    handleReturnV1 [("http://x", c7Rec)] "http://x" (some "OK")
      = (V1Outcome.typeErrorCallRecord, [("http://x", c7Rec)]) := by
  decide

end HttpJs

namespace HttpJs

theorem postSendVal_update (r : ReqObj) (v : String) (o : Option String) :
    postSendVal { r with verb := v, open_url := o } = postSendVal r := by
  simp [postSendVal]

theorem mergedRecord_fields (st : HttpState) (args : Args) (now : Nat) :
    (addRequestHeaders (mergeArgs st args now)).params = args.params ∧
    (addRequestHeaders (mergeArgs st args now)).json = args.json ∧
    (addRequestHeaders (mergeArgs st args now)).raw_data = args.raw_data ∧
    (addRequestHeaders (mergeArgs st args now)).url = args.url := by
  refine ⟨?_, ?_, ?_, ?_⟩ <;> simp [addRequestHeaders, mergeArgs]

theorem postPipeline_sent (st : HttpState) (args : Args) (now : Nat)
    (verb u : String) (hu : args.url = some u) (hne : u ≠ "") :
    (init (prepPostArgs st args now verb).1 (prepPostArgs st args now verb).2).2
      = some
        { verb := verb
          open_url := some u
          headers := (addRequestHeaders (mergeArgs st args now)).headers
          body :=
            if strTruthy (postSendVal (addRequestHeaders (mergeArgs st args now)))
            then postSendVal (addRequestHeaders (mergeArgs st args now))
            else none } := by
  have hru : (addRequestHeaders (mergeArgs st args now)).url = some u :=
    (mergedRecord_fields st args now).2.2.2.trans hu
  simp only [prepPostArgs, makeRequestObject, init, makeRequest,
    postSendVal_update]
  rw [hru]
  simp [strTruthy, hne]

theorem postSendVal_of_fields (r : ReqObj) :
    postSendVal r
      = (if strTruthy r.raw_data then r.raw_data
         else if r.json.isSome then r.json.map stringify
         else if r.params.isSome then r.params.map toParamString
         else none) := by
  cases hd : r.raw_data with
  | some d =>
    by_cases hde : d = "" <;>
      cases hj : r.json <;>
        cases hp : r.params <;>
          simp [postSendVal, strTruthy, hd, hj, hp, hde]
  | none =>
    cases hj : r.json <;>
      cases hp : r.params <;>
        simp [postSendVal, strTruthy, hd, hj, hp]

/-- Claim C2: in the last variant, when more than one of params, json,
raw_data is set on a POST or PUT config, the value handed to `xhr.send`
comes from the last set source in the fixed scan order params, json,
raw_data -- raw_data over json over params -- with params form-encoded,
json JSON-serialized, and raw_data passed through unchanged
(`specLastSourceBody` spells out exactly that selection rule). -/
theorem c2_post_body_precedence (st : HttpState) (args : Args) (now : Nat)
    (_h : 2 ≤ truthySourceCount args) :
    (runPost st args now).2.1.send_val = specLastSourceBody args ∧
    (runPut st args now).2.1.send_val = specLastSourceBody args := by
  obtain ⟨hp, hj, hd, -⟩ := mergedRecord_fields st args now
  constructor <;>
  · simp only [runPost, runPut, prepPostArgs, makeRequestObject,
      postSendVal_update]
    rw [postSendVal_of_fields, specLastSourceBody, hp, hj, hd]

/-- Claim C2, witness: params and raw_data both set; the body is the
raw_data value, the later source in the scan order. -/
theorem c2_witness :
    2 ≤ truthySourceCount c2WitArgs ∧
    (runPost st0 c2WitArgs 3).2.1.send_val = specLastSourceBody c2WitArgs ∧
    specLastSourceBody c2WitArgs = some "RAW" :=
  ⟨by decide, (c2_post_body_precedence st0 c2WitArgs 3 (by decide)).1,
   by decide⟩

end HttpJs

namespace HttpJs

/-- Claim C3, counterexample: a POST config with only raw_data set and no
caller Content-Type is dispatched WITH a Content-Type header -- the
form-urlencoded default set by `addRequestHeaders`' else branch -- where
the claim says the dispatcher sets no Content-Type for raw_data; the
body is still the raw_data value unmodified. -/
theorem c3_counterexample :
    ((runPost st0 c3Args 3).2.2.map (fun s => tlookup s.headers "Content-Type"))
      = some (some "application/x-www-form-urlencoded") ∧
    ((runPost st0 c3Args 3).2.2.map SentRequest.body) = some (some "RAW") ∧
    (some (some "application/x-www-form-urlencoded")
        : Option (Option String)) ≠ some none := by
  refine ⟨by decide, by decide, by decide⟩

/-- Claim C3 (amended): for a POST or PUT config with a truthy url, exactly
one payload source set and no caller Content-Type: with only params set
(non-empty) the body is the form-encoded string and Content-Type is
application/x-www-form-urlencoded; with only json set the body is the
JSON serialization and Content-Type is application/json;charset=UTF-8;
with only raw_data set (non-empty) the body is the raw_data value
unmodified and Content-Type is application/x-www-form-urlencoded -- the
form-urlencoded default, not the absence of a Content-Type the spec
describes (see the counterexample). -/
theorem c3_amended_payload_content_type (st : HttpState) (args : Args)
    (now : Nat) (u : String) (hu : args.url = some u) (hne : u ≠ "")
    (hct : headerTruthy (args.headers.getD []) "Content-Type" = false) :
    (∀ kv ps, args.params = some (kv :: ps) → args.json = none →
        args.raw_data = none →
      ((runPost st args now).2.2.map SentRequest.body
          = some (some (toParamString (kv :: ps))) ∧
       (runPut st args now).2.2.map SentRequest.body
          = some (some (toParamString (kv :: ps))) ∧
       (runPost st args now).2.2.map (fun s => tlookup s.headers "Content-Type")
          = some (some "application/x-www-form-urlencoded") ∧
       (runPut st args now).2.2.map (fun s => tlookup s.headers "Content-Type")
          = some (some "application/x-www-form-urlencoded"))) ∧
    (∀ j, args.json = some j → args.params = none → args.raw_data = none →
      ((runPost st args now).2.2.map SentRequest.body
          = some (some (stringify j)) ∧
       (runPut st args now).2.2.map SentRequest.body
          = some (some (stringify j)) ∧
       (runPost st args now).2.2.map (fun s => tlookup s.headers "Content-Type")
          = some (some "application/json;charset=UTF-8") ∧
       (runPut st args now).2.2.map (fun s => tlookup s.headers "Content-Type")
          = some (some "application/json;charset=UTF-8"))) ∧
    (∀ d, args.raw_data = some d → d ≠ "" → args.params = none →
        args.json = none →
      ((runPost st args now).2.2.map SentRequest.body = some (some d) ∧
       (runPut st args now).2.2.map SentRequest.body = some (some d) ∧
       (runPost st args now).2.2.map (fun s => tlookup s.headers "Content-Type")
          = some (some "application/x-www-form-urlencoded") ∧
       (runPut st args now).2.2.map (fun s => tlookup s.headers "Content-Type")
          = some (some "application/x-www-form-urlencoded"))) := by
  obtain ⟨hrp, hrj, hrd, -⟩ := mergedRecord_fields st args now
  have hmj : (mergeArgs st args now).json = args.json := by simp [mergeArgs]
  have hct2 : headerTruthy (mergeArgs st args now).headers "Content-Type"
      = false := by
    simpa [mergeArgs] using hct
  have hCT := ct_of_addRequestHeaders (mergeArgs st args now) hct2
  have hpost : (runPost st args now).2.2
      = (init (prepPostArgs st args now "post").1
          (prepPostArgs st args now "post").2).2 := rfl
  have hput : (runPut st args now).2.2
      = (init (prepPostArgs st args now "put").1
          (prepPostArgs st args now "put").2).2 := rfl
  refine ⟨?_, ?_, ?_⟩
  · intro kv ps hp hj hd
    have hsv : postSendVal (addRequestHeaders (mergeArgs st args now))
        = some (toParamString (kv :: ps)) := by
      rw [postSendVal_of_fields, hrp, hrj, hrd, hp, hj, hd]
      simp [strTruthy]
    have hjn : (addRequestHeaders (mergeArgs st args now)).json.isSome = false := by
      rw [hrj, hj]; rfl
    rw [hpost, hput, postPipeline_sent st args now "post" u hu hne,
      postPipeline_sent st args now "put" u hu hne]
    simp [hsv, strTruthy, toParamString_ne_empty kv ps, hCT, hjn, hmj, hj]
  · intro j hj hp hd
    have hsv : postSendVal (addRequestHeaders (mergeArgs st args now))
        = some (stringify j) := by
      rw [postSendVal_of_fields, hrp, hrj, hrd, hp, hj, hd]
      simp [strTruthy]
    have hjn : (addRequestHeaders (mergeArgs st args now)).json.isSome = true := by
      rw [hrj, hj]; rfl
    rw [hpost, hput, postPipeline_sent st args now "post" u hu hne,
      postPipeline_sent st args now "put" u hu hne]
    simp [hsv, strTruthy, stringify_ne_empty j, hCT, hjn, hmj, hj]
  · intro d hd hde hp hj
    have hsv : postSendVal (addRequestHeaders (mergeArgs st args now))
        = some d := by
      rw [postSendVal_of_fields, hrp, hrj, hrd, hp, hj, hd]
      simp [strTruthy, hde]
    have hjn : (addRequestHeaders (mergeArgs st args now)).json.isSome = false := by
      rw [hrj, hj]; rfl
    rw [hpost, hput, postPipeline_sent st args now "post" u hu hne,
      postPipeline_sent st args now "put" u hu hne]
    simp [hsv, strTruthy, hde, hCT, hjn, hmj, hj]

/-- Claim C3, witness: the params-only case at a concrete config. -/
theorem c3_witness :
    (runPost st0 c3WitArgs 3).2.2.map SentRequest.body
      = some (some (toParamString [("a", "1")])) ∧
    (runPost st0 c3WitArgs 3).2.2.map (fun s => tlookup s.headers "Content-Type")
      = some (some "application/x-www-form-urlencoded") := by
  have h := (c3_amended_payload_content_type st0 c3WitArgs 3 "http://x" rfl
    (by decide) (by decide)).1 ("a", "1") [] rfl rfl rfl
  exact ⟨h.1, h.2.2.1⟩

end HttpJs

namespace HttpJs

theorem runGet_record_fields (st : HttpState) (args : Args) (now : Nat) :
    (runGet st args now).2.1.keep_key
        = jsShowUrl args.url ++ "-" ++ natDecimal now ∧
    (runGet st args now).2.1.callback = args.callback ∧
    (runGet st args now).2.1.url = args.url := by
  refine ⟨?_, ?_, ?_⟩ <;>
    simp [runGet, prepGetArgs, makeRequestObject, addRequestHeaders, mergeArgs]

theorem runGet_keep (st : HttpState) (args : Args) (now : Nat) (u : String)
    (hu : args.url = some u) (hne : u ≠ "") :
    (runGet st args now).1.async_keep
      = tset st.async_keep (runGet st args now).2.1.keep_key
          (runGet st args now).2.1 := by
  have hru : (addRequestHeaders (mergeArgs st args now)).url = some u :=
    (mergedRecord_fields st args now).2.2.2.trans hu
  simp only [runGet, prepGetArgs, makeRequestObject, init, makeRequest]
  rw [hru]
  simp [strTruthy, hne]

/-- Claim C5: two GET requests sent to the same URL with different send-time
timestamps occupy distinct slots of the pending-request table -- their
keys url-dash-timestamp differ because the decimal timestamps differ --
and each completion, arriving with its own key, invokes exactly its own
request's callback with its own response: completing the first calls
callback one with response one only, and then completing the second
calls callback two with response two only. -/
theorem c5_concurrent_no_crosstalk (st : HttpState) (a1 a2 : Args)
    (t1 t2 : Nat) (u : String) (cb1 cb2 : Nat) (r1 r2 : String)
    (hne : u ≠ "") (h1u : a1.url = some u) (h2u : a2.url = some u)
    (h1c : a1.callback = some cb1) (h2c : a2.callback = some cb2)
    (ht : t1 ≠ t2) :
    (runGet st a1 t1).2.1.keep_key
        ≠ (runGet (runGet st a1 t1).1 a2 t2).2.1.keep_key ∧
    (handleReturn (runGet (runGet st a1 t1).1 a2 t2).1.async_keep
        (runGet st a1 t1).2.1.keep_key (some u) (some r1)).calls.map callCb
      = [cb1] ∧
    (handleReturn (runGet (runGet st a1 t1).1 a2 t2).1.async_keep
        (runGet st a1 t1).2.1.keep_key (some u) (some r1)).calls.map callResp
      = [some r1] ∧
    (handleReturn (handleReturn (runGet (runGet st a1 t1).1 a2 t2).1.async_keep
        (runGet st a1 t1).2.1.keep_key (some u) (some r1)).keep
        (runGet (runGet st a1 t1).1 a2 t2).2.1.keep_key (some u)
        (some r2)).calls.map callCb
      = [cb2] ∧
    (handleReturn (handleReturn (runGet (runGet st a1 t1).1 a2 t2).1.async_keep
        (runGet st a1 t1).2.1.keep_key (some u) (some r1)).keep
        (runGet (runGet st a1 t1).1 a2 t2).2.1.keep_key (some u)
        (some r2)).calls.map callResp
      = [some r2] := by
  obtain ⟨k1eq, c1eq, -⟩ := runGet_record_fields st a1 t1
  obtain ⟨k2eq, c2eq, -⟩ := runGet_record_fields (runGet st a1 t1).1 a2 t2
  have hk : (runGet st a1 t1).2.1.keep_key
      ≠ (runGet (runGet st a1 t1).1 a2 t2).2.1.keep_key := by
    rw [k1eq, k2eq, h1u, h2u]
    intro h
    exact ht (keepKey_inj (jsShowUrl (some u)) h)
  have htab1 := runGet_keep st a1 t1 u h1u hne
  have htab2 := runGet_keep (runGet st a1 t1).1 a2 t2 u h2u hne
  have hl1 : tlookup (runGet (runGet st a1 t1).1 a2 t2).1.async_keep
      (runGet st a1 t1).2.1.keep_key = some (runGet st a1 t1).2.1 := by
    rw [htab2, tlookup_tset_ne _ _ hk, htab1, tlookup_tset_self]
  rw [handleReturn_found _ _ _ _ _ hl1]
  simp only
  have hl2 : tlookup (tdel (runGet (runGet st a1 t1).1 a2 t2).1.async_keep
      (runGet st a1 t1).2.1.keep_key)
      (runGet (runGet st a1 t1).1 a2 t2).2.1.keep_key
      = some (runGet (runGet st a1 t1).1 a2 t2).2.1 := by
    rw [tlookup_tdel_ne _ (Ne.symm hk), htab2, tlookup_tset_self]
  rw [handleReturn_found _ _ _ _ _ hl2]
  refine ⟨hk, ?_, ?_, ?_, ?_⟩
  · cases hsu : (runGet st a1 t1).2.1.send_url <;>
      simp [c1eq, h1c, hsu, callCb]
  · cases hsu : (runGet st a1 t1).2.1.send_url <;>
      simp [c1eq, h1c, hsu, callResp]
  · cases hsu : (runGet (runGet st a1 t1).1 a2 t2).2.1.send_url <;>
      simp [c2eq, h2c, hsu, callCb]
  · cases hsu : (runGet (runGet st a1 t1).1 a2 t2).2.1.send_url <;>
      simp [c2eq, h2c, hsu, callResp]

/-- Claim C5, witness: two concrete GET configs to the same URL at
timestamps 1 and 2, with callbacks 1 and 2 and responses A and B. -/
theorem c5_witness :
    (runGet st0 c5ArgsA 1).2.1.keep_key
        ≠ (runGet (runGet st0 c5ArgsA 1).1 c5ArgsB 2).2.1.keep_key ∧
    (handleReturn (runGet (runGet st0 c5ArgsA 1).1 c5ArgsB 2).1.async_keep
        (runGet st0 c5ArgsA 1).2.1.keep_key (some "http://x")
        (some "A")).calls.map callCb = [1] ∧
    (handleReturn (handleReturn
        (runGet (runGet st0 c5ArgsA 1).1 c5ArgsB 2).1.async_keep
        (runGet st0 c5ArgsA 1).2.1.keep_key (some "http://x") (some "A")).keep
        (runGet (runGet st0 c5ArgsA 1).1 c5ArgsB 2).2.1.keep_key
        (some "http://x") (some "B")).calls.map callCb = [2] := by
  have h := c5_concurrent_no_crosstalk st0 c5ArgsA c5ArgsB 1 2 "http://x" 1 2
    "A" "B" (by decide) rfl rfl rfl rfl (by decide)
  exact ⟨h.1, h.2.1, h.2.2.2.1⟩

end HttpJs
